import Mathlib

/-!
# Lab2.c : process creation, execution and reaping

A shallow embedding of `src/Lab2.c`.  The program forks `NCHILD = 15`
children, each of which either replaces its image (`execvp`), fails to do so
and leaves with status 127, or calls `abort()`.  The parent records the
process identifiers, waits for them in creation order, classifies each raw
status and prints a summary.

The operating system is an explicit environment (`Env`): the value returned by
each `fork()`, whether `execvp()` succeeds, and what each `waitpid()` returns.
One environment describes ONE execution context of `main`: the parent context
is the one where `fork()` never returns 0, the context of child `i` is the one
where `fork()` returns 0 at the `i`-th call (its history up to that call is
the parent's, of which the child is a copy).  The status-decoding operations of
`<sys/wait.h>` are a parameter (`WaitStatus`).  Everything written to the
standard streams and every system call is logged in a trace of `Event`s.
-/

namespace Lab2

/-! ## Constants and the job table (lines 22-102) -/

/-- Total number of child processes to create (line 23). -/
def NCHILD : Nat := 15

/-- The C enumeration `job_type_t` (lines 26-30) is an integer type. -/
abbrev job_type_t := Nat

/-- Execute a valid command (line 27). -/
def JOB_EXEC : job_type_t := 0
/-- Attempt to execute a non-existent command (line 28). -/
def JOB_INVALID : job_type_t := 1
/-- Call `abort()` (line 29). -/
def JOB_ABORT : job_type_t := 2

/-- Value of `EXIT_SUCCESS` in `<stdlib.h>`. -/
def EXIT_SUCCESS : Int := 0
/-- Value of `EXIT_FAILURE` in `<stdlib.h>`. -/
def EXIT_FAILURE : Int := 1
/-- Number of the signal raised by `abort()`, from `<signal.h>`. -/
def SIGABRT : Int := 6

/-- A value of type `char **`: either `NULL` or a `NULL`-terminated vector of
strings, kept without its terminator. -/
inductive ArgvPtr where
  | null
  | args (a : List String)
  deriving DecidableEq

def cmd0 : List String := ["ls", "-l"]
def cmd1 : List String := ["pwd"]
def cmd2 : List String := ["date"]
def cmd3 : List String := ["whoami"]
def cmd4 : List String := ["id"]
def cmd5 : List String := ["uname", "-a"]
def cmd6 : List String := ["echo", "Hello", "Garrett"]
def cmd7 : List String := ["sleep", "0"]
def cmd8 : List String := ["hostname"]
def cmd9 : List String := ["uptime"]
def cmd10 : List String := ["env"]
def bad0 : List String := ["nonexistentcmd1"]
def bad1 : List String := ["nonexistentcmd2"]

/-- The two parallel arrays `types[NCHILD]` and `argvs[NCHILD]` (lines 75-76).
A cell is `none` until it is assigned. -/
structure JobTable where
  types : List (Option job_type_t)
  argvs : List (Option ArgvPtr)
  deriving DecidableEq

/-- The arrays as declared, before any assignment. -/
def JobTable.fresh : JobTable :=
  { types := List.replicate NCHILD none, argvs := List.replicate NCHILD none }

/-- One source line `types[i] = t; argvs[i] = a;`. -/
def JobTable.assign (T : JobTable) (i : Nat) (t : job_type_t) (a : ArgvPtr) : JobTable :=
  { types := T.types.set i (some t), argvs := T.argvs.set i (some a) }

/-- The job table after the assignments of lines 84-102. -/
def jobTable : JobTable :=
  ((((((((((((((JobTable.fresh.assign 0 JOB_EXEC (.args cmd0)).assign 1 JOB_EXEC (.args cmd1)).assign
    2 JOB_EXEC (.args cmd2)).assign 3 JOB_EXEC (.args cmd3)).assign 4 JOB_EXEC (.args cmd4)).assign
    5 JOB_EXEC (.args cmd5)).assign 6 JOB_EXEC (.args cmd6)).assign 7 JOB_EXEC (.args cmd7)).assign
    8 JOB_EXEC (.args cmd8)).assign 9 JOB_EXEC (.args cmd9)).assign 10 JOB_EXEC (.args cmd10)).assign
    11 JOB_INVALID (.args bad0)).assign 12 JOB_INVALID (.args bad1)).assign
    13 JOB_ABORT .null).assign 14 JOB_ABORT .null

/-- Reading `xs[i]`: defined only when `i` is inside the array and the cell
has been assigned. -/
def readCell {α : Type} (xs : List (Option α)) (i : Nat) : Option α :=
  match xs[i]? with
  | some (some v) => some v
  | _ => none

/-! ## The environment -/

/-- The status-decoding operations of `<sys/wait.h>` used on lines 242-257. -/
structure WaitStatus where
  WIFEXITED : Int → Bool
  WEXITSTATUS : Int → Int
  WIFSIGNALED : Int → Bool
  WTERMSIG : Int → Int

/-- Conversion of an `int` to `signed char`. -/
def toSChar (x : Int) : Int := (x + 128) % 256 - 128

/-- The decoding of the GNU C library (`bits/waitstatus.h`):
`WTERMSIG(s) = s & 0x7f`, `WIFEXITED(s) = (WTERMSIG(s) == 0)`,
`WEXITSTATUS(s) = (s & 0xff00) >> 8`,
`WIFSIGNALED(s) = (((signed char) ((s & 0x7f) + 1) >> 1) > 0)`. -/
def glibc : WaitStatus where
  WIFEXITED := fun s => decide (s % 128 = 0)
  WEXITSTATUS := fun s => (s / 256) % 256
  WIFSIGNALED := fun s => decide (0 < toSChar (s % 128 + 1) / 2)
  WTERMSIG := fun s => s % 128

/-- What the operating system answers in one execution context of `main`. -/
structure Env where
  /-- Value of `getpid()` at line 40, before any `fork()`: the identifier of
  the process that started `main`. -/
  getpid : Int
  /-- Value of `getpid()` at line 121, in the process created by the `fork()`
  that returned 0. -/
  getpid_child : Int
  /-- Value returned by the `fork()` of spawn-loop iteration `i` (line 110):
  negative on failure, `0` in the child, the child's identifier in the parent. -/
  fork : Nat → Int
  /-- Whether `execvp(file, argv)` replaces the image (`true`, the call does not
  return) or fails and returns (`false`). -/
  execvp : Option String → List String → Bool
  /-- Value returned by the `waitpid(pid, &status, 0)` of wait-loop iteration
  `i` (line 225) paired with the value it stores in `status`. -/
  waitpid : Nat → Int → Int × Int

/-! ## Traces and program states -/

/-- Observable actions of one execution context, in program order. -/
inductive Event where
  /-- Line 40. -/
  | parentPid (pid : Int)
  /-- Line 110: call of `fork()` in iteration `i`. -/
  | forkCall (i : Nat)
  /-- Line 114. -/
  | forkFailed
  /-- Line 121. -/
  | childWill (i : Nat) (pid : Int)
  /-- Lines 130-136: `execvp: ` followed by the arguments. -/
  | execAnnounce (argv : List String)
  /-- Line 160. -/
  | invalidAnnounce (name : Option String)
  /-- Line 179. -/
  | abortAnnounce
  /-- Lines 137, 161, 180: `fflush(stdout)`. -/
  | flush
  /-- Lines 145, 167: call of `execvp(a[0], a)`. -/
  | execvpCall (file : Option String) (argv : List String)
  /-- Line 151. -/
  | execFailed
  /-- Line 170. -/
  | invalidExecFailed
  /-- Line 225: call of `waitpid(child_pids[i], &status, 0)`. -/
  | waitCall (i : Nat) (pid : Int)
  /-- Line 229. -/
  | waitFailed
  /-- Line 234. -/
  | waitedFor (i : Nat) (pid : Int)
  /-- Line 245. -/
  | exitedNormally (code : Int)
  /-- Line 262. -/
  | terminatedBySignal (sig : Int)
  /-- Line 267. -/
  | endedAbnormally
  /-- Lines 275-279. -/
  | summary (created exited_zero exited_nonzero terminated_signal : Nat)
  deriving DecidableEq

/-- How an execution context of `main` ends. -/
inductive Termination where
  /-- Line 116: `exit(EXIT_FAILURE)` after a failed `fork()`. -/
  | forkFailExit (code : Int)
  /-- Lines 145, 167: `execvp` succeeded, the image is replaced. -/
  | replaced (file : Option String) (argv : List String)
  /-- Lines 152, 171: `_exit(127)` after a failed `execvp`. -/
  | execFailExit (code : Int)
  /-- Line 186: `abort()`. -/
  | aborted
  /-- Line 191: the safety `_exit(EXIT_FAILURE)`. -/
  | fallbackExit (code : Int)
  /-- Line 282: `return EXIT_SUCCESS`. -/
  | returned (code : Int)
  /-- An array cell is read outside the array or before it is written, or a
  null pointer is dereferenced. -/
  | undefinedBehaviour
  deriving DecidableEq

/-- The exit status a termination hands to the operating system, if any. -/
def Termination.exitStatus : Termination → Option Int
  | .forkFailExit c => some c
  | .execFailExit c => some c
  | .fallbackExit c => some c
  | .returned c => some c
  | .replaced _ _ => none
  | .aborted => none
  | .undefinedBehaviour => none

/-- The local variables of `main` that change, and the trace so far. -/
structure Locals where
  /-- Line 34; `none` marks a cell not yet written. -/
  child_pids : List (Option Int)
  /-- Line 37. -/
  created : Nat
  /-- Line 210. -/
  exited_zero : Nat
  /-- Line 211. -/
  exited_nonzero : Nat
  /-- Line 212. -/
  terminated_signal : Nat
  trace : List Event
  deriving DecidableEq

/-- Append events to the trace. -/
def Locals.emit (s : Locals) (es : List Event) : Locals :=
  { s with trace := s.trace ++ es }

/-- Result of a loop body or of a loop: go on with new locals, or the
execution context is over. -/
inductive Flow where
  | next (s : Locals)
  | halt (s : Locals) (t : Termination)
  deriving DecidableEq

/-- A finished execution context. -/
structure Run where
  final : Locals
  term : Termination
  deriving DecidableEq

/-! ## Phase 1: the spawn loop (lines 108-200) -/

/-- The child branch of the fork (lines 119-192), for spawn index `i`. -/
def child (env : Env) (i : Nat) (s : Locals) : Flow :=
  let s := s.emit [.childWill i env.getpid_child]
  match readCell jobTable.types i with
  | none => .halt s .undefinedBehaviour
  | some ty =>
    if ty = JOB_EXEC then
      match readCell jobTable.argvs i with
      | some (.args a) =>
        let s := s.emit [.execAnnounce a, .flush, .execvpCall a.head? a]
        if env.execvp a.head? a then .halt s (.replaced a.head? a)
        else .halt (s.emit [.execFailed]) (.execFailExit 127)
      | _ => .halt s .undefinedBehaviour
    else if ty = JOB_INVALID then
      match readCell jobTable.argvs i with
      | some (.args a) =>
        let s := s.emit [.invalidAnnounce a.head?, .flush, .execvpCall a.head? a]
        if env.execvp a.head? a then .halt s (.replaced a.head? a)
        else .halt (s.emit [.invalidExecFailed]) (.execFailExit 127)
      | _ => .halt s .undefinedBehaviour
    else if ty = JOB_ABORT then
      .halt (s.emit [.abortAnnounce, .flush]) .aborted
    else
      .halt s (.fallbackExit EXIT_FAILURE)

/-- The parent branch of the fork (lines 194-199). -/
def recordChild (i : Nat) (pid : Int) (s : Locals) : Locals :=
  { s with child_pids := s.child_pids.set i (some pid), created := s.created + 1 }

/-- One iteration of the spawn loop (lines 110-199). -/
def spawnStep (env : Env) (i : Nat) (s : Locals) : Flow :=
  let pid := env.fork i
  let s := s.emit [.forkCall i]
  if pid < 0 then
    .halt (s.emit [.forkFailed]) (.forkFailExit EXIT_FAILURE)
  else if pid = 0 then
    child env i s
  else if i < s.child_pids.length then
    .next (recordChild i pid s)
  else
    .halt s .undefinedBehaviour

/-- The loop `for (int i = 0; i < NCHILD; ++i)` of line 108, entered at `i`;
`none` when the fuel runs out. -/
def spawnLoop (env : Env) : Nat → Nat → Locals → Option Flow
  | 0, _, _ => none
  | fuel + 1, i, s =>
    if i < NCHILD then
      match spawnStep env i s with
      | .next s' => spawnLoop env fuel (i + 1) s'
      | .halt s' t => some (.halt s' t)
    else some (.next s)

/-! ## Phase 2: the wait loop (lines 215-269) -/

/-- Classification of a retrieved status (lines 242-268). -/
def classify (W : WaitStatus) (status : Int) (s : Locals) : Locals :=
  if W.WIFEXITED status then
    let code := W.WEXITSTATUS status
    let s := s.emit [.exitedNormally code]
    if code = 0 then { s with exited_zero := s.exited_zero + 1 }
    else { s with exited_nonzero := s.exited_nonzero + 1 }
  else if W.WIFSIGNALED status then
    let sig := W.WTERMSIG status
    let s := s.emit [.terminatedBySignal sig]
    { s with terminated_signal := s.terminated_signal + 1 }
  else
    s.emit [.endedAbnormally]

/-- The wait-loop body once `child_pids[i]` has been read as `pid`
(lines 225-268). -/
def reap (W : WaitStatus) (env : Env) (i : Nat) (pid : Int) (s : Locals) : Locals :=
  let r := env.waitpid i pid
  let s := s.emit [.waitCall i pid]
  if r.1 = -1 then
    s.emit [.waitFailed]
  else
    classify W r.2 (s.emit [.waitedFor i pid])

/-- One iteration of the wait loop (lines 216-268). -/
def waitStep (W : WaitStatus) (env : Env) (i : Nat) (s : Locals) : Flow :=
  match readCell s.child_pids i with
  | none => .halt s .undefinedBehaviour
  | some pid => .next (reap W env i pid s)

/-- The loop `for (int i = 0; i < created; ++i)` of line 215, entered at `i`;
`none` when the fuel runs out. -/
def waitLoop (W : WaitStatus) (env : Env) : Nat → Nat → Locals → Option Flow
  | 0, _, _ => none
  | fuel + 1, i, s =>
    if i < s.created then
      match waitStep W env i s with
      | .next s' => waitLoop W env fuel (i + 1) s'
      | .halt s' t => some (.halt s' t)
    else some (.next s)

/-! ## The whole program -/

/-- Locals at line 40, after the first `printf`. -/
def start (env : Env) : Locals :=
  { child_pids := List.replicate NCHILD none, created := 0, exited_zero := 0,
    exited_nonzero := 0, terminated_signal := 0, trace := [.parentPid env.getpid] }

/-- Phase 3 (lines 275-282). -/
def report (s : Locals) : Run :=
  { final := s.emit [.summary s.created s.exited_zero s.exited_nonzero s.terminated_signal],
    term := .returned EXIT_SUCCESS }

/-- The function `main` with both loops given `fuel` iterations. -/
def mainFuel (W : WaitStatus) (env : Env) (fuel : Nat) : Option Run :=
  match spawnLoop env fuel 0 (start env) with
  | none => none
  | some (.halt s t) => some { final := s, term := t }
  | some (.next s) =>
    match waitLoop W env fuel 0 s with
    | none => none
    | some (.halt s' t) => some { final := s', term := t }
    | some (.next s') => some (report s')

/-- The function `main` (lines 32-283): each loop runs at most `NCHILD`
bodies and one final test. -/
def main (W : WaitStatus) (env : Env) : Option Run :=
  mainFuel W env (NCHILD + 1)

/-! ## Vocabulary for the properties -/

/-- Locals at the head of spawn-loop iteration `k` when the first `k` calls of
`fork()` returned in the parent. -/
def spawned (env : Env) : Nat → Locals
  | 0 => start env
  | k + 1 => recordChild k (env.fork k) ((spawned env k).emit [.forkCall k])

/-- Locals at the head of wait-loop iteration `k` after a complete spawn loop. -/
def reaped (W : WaitStatus) (env : Env) : Nat → Locals
  | 0 => spawned env NCHILD
  | k + 1 => reap W env k (env.fork k) (reaped W env k)

/-- Locals at the head of spawn-loop iteration `k`, obtained by running the
loop test and the loop body `k` times from the start; `none` when the loop
was left before. -/
def spawnAt (env : Env) : Nat → Option Locals
  | 0 => some (start env)
  | k + 1 =>
    match spawnAt env k with
    | none => none
    | some s =>
      if k < NCHILD then
        match spawnStep env k s with
        | .next s' => some s'
        | .halt _ _ => none
      else none

/-- All process creations succeed: every `fork()` returns in the parent. -/
def AllForksSucceed (env : Env) : Prop := ∀ i, i < NCHILD → 0 < env.fork i

/-- The environment is the parent context: `fork()` never returns 0. -/
def ParentContext (env : Env) : Prop := ∀ i, i < NCHILD → env.fork i ≠ 0

/-- The environment is the execution context of child `i`: the first `i`
calls of `fork()` returned in the parent and call `i` returns 0. -/
def ChildContext (env : Env) (i : Nat) : Prop :=
  i < NCHILD ∧ (∀ j, j < i → 0 < env.fork j) ∧ env.fork i = 0

/-- Indices of the `fork()` calls of a trace, in order. -/
def forkIndices (tr : List Event) : List Nat :=
  tr.filterMap fun e => match e with
    | .forkCall i => some i
    | _ => none

/-- Loop index and identifier of every `waitpid` call of a trace, in order. -/
def waitCalls (tr : List Event) : List (Nat × Int) :=
  tr.filterMap fun e => match e with
    | .waitCall i pid => some (i, pid)
    | _ => none

/-- Loop index of every per-child report line (line 234) of a trace, in order. -/
def reportIndices (tr : List Event) : List Nat :=
  tr.filterMap fun e => match e with
    | .waitedFor i _ => some i
    | _ => none

/-- The summaries printed in a trace, in order. -/
def summaries (tr : List Event) : List (Nat × Nat × Nat × Nat) :=
  tr.filterMap fun e => match e with
    | .summary c z n g => some (c, z, n, g)
    | _ => none

/-- Classification details printed in a trace (lines 245, 262, 267), in order. -/
def details (tr : List Event) : List Event :=
  tr.filter fun e => match e with
    | .exitedNormally _ => true
    | .terminatedBySignal _ => true
    | .endedAbnormally => true
    | _ => false

/-- The three outcome counters. -/
def Locals.outcomes (s : Locals) : Nat × Nat × Nat :=
  (s.exited_zero, s.exited_nonzero, s.terminated_signal)

/-- Whether the `waitpid` of wait-loop iteration `i` succeeds in `env` when
given the identifier recorded for child `i`. -/
def waitOk (env : Env) (i : Nat) : Bool :=
  decide ((env.waitpid i (env.fork i)).1 ≠ -1)

/-- The status stored by the `waitpid` of wait-loop iteration `i`. -/
def statusAt (env : Env) (i : Nat) : Int :=
  (env.waitpid i (env.fork i)).2

/-- The argument vector of table entry `i` (empty for `NULL` and outside). -/
def argvOf (i : Nat) : List String :=
  match readCell jobTable.argvs i with
  | some (.args a) => a
  | _ => []

/-- A sample parent context (identifier 100): child `i` has identifier `101 + i`, every wait
succeeds, children 0-10 exit with 0, children 11-12 exit with 127 and children
13-14 are killed by signal 6 with a core dump. -/
def sampleParent : Env where
  getpid := 100
  getpid_child := 0
  fork := fun i => 101 + i
  execvp := fun _ _ => true
  waitpid := fun i pid => (pid, if i < 11 then 0 else if i < 13 then 127 * 256 else 134)

/-- A sample context of child `i`; `ok` tells whether `execvp` succeeds. -/
def sampleChild (i : Nat) (ok : Bool) : Env where
  getpid := 100
  getpid_child := 101 + i
  fork := fun j => if j < i then 101 + j else 0
  execvp := fun _ _ => ok
  waitpid := fun _ _ => (-1, 0)

/-- How one retrieved status moves the three outcome counters
`(exited_zero, exited_nonzero, terminated_signal)`. -/
def tallyStep (W : WaitStatus) (t : Nat × Nat × Nat) (status : Int) : Nat × Nat × Nat :=
  if W.WIFEXITED status then
    if W.WEXITSTATUS status = 0 then (t.1 + 1, t.2.1, t.2.2) else (t.1, t.2.1 + 1, t.2.2)
  else if W.WIFSIGNALED status then (t.1, t.2.1, t.2.2 + 1)
  else t

/-- The classification detail printed for a retrieved status. -/
def detailOf (W : WaitStatus) (status : Int) : Event :=
  if W.WIFEXITED status then .exitedNormally (W.WEXITSTATUS status)
  else if W.WIFSIGNALED status then .terminatedBySignal (W.WTERMSIG status)
  else .endedAbnormally

/-- What the operating system stores in `status` when the parent reaps a
child that ended with termination `t`: a normal exit with the low 8 bits of
the exit status, or a termination by `SIGABRT` after `abort()`.  Nothing is
said of a replaced image, whose end is that of the new program. -/
def statusMatches (W : WaitStatus) (t : Termination) (status : Int) : Bool :=
  match t with
  | .aborted =>
    !W.WIFEXITED status && W.WIFSIGNALED status && decide (W.WTERMSIG status = SIGABRT)
  | .forkFailExit c => W.WIFEXITED status && decide (W.WEXITSTATUS status = c % 256)
  | .execFailExit c => W.WIFEXITED status && decide (W.WEXITSTATUS status = c % 256)
  | .fallbackExit c => W.WIFEXITED status && decide (W.WEXITSTATUS status = c % 256)
  | .returned c => W.WIFEXITED status && decide (W.WEXITSTATUS status = c % 256)
  | .replaced _ _ => true
  | .undefinedBehaviour => true

/-- A parent context in which the wait for child 0 succeeds and reports a
child stopped by signal 19 (status `0x137f`). -/
def sampleStopped : Env where
  getpid := 100
  getpid_child := 0
  fork := fun i => 101 + i
  execvp := fun _ _ => true
  waitpid := fun _ pid => (pid, 4991)

/-- The `waitpid` call `c = (i, pid)` succeeds with a normal exit of code 0. -/
def isZeroExit (W : WaitStatus) (env : Env) (c : Nat × Int) : Bool :=
  decide ((env.waitpid c.1 c.2).1 ≠ -1) && W.WIFEXITED (env.waitpid c.1 c.2).2
    && decide (W.WEXITSTATUS (env.waitpid c.1 c.2).2 = 0)

/-- The `waitpid` call `c = (i, pid)` succeeds with a normal exit of nonzero
code. -/
def isNonzeroExit (W : WaitStatus) (env : Env) (c : Nat × Int) : Bool :=
  decide ((env.waitpid c.1 c.2).1 ≠ -1) && W.WIFEXITED (env.waitpid c.1 c.2).2
    && decide (W.WEXITSTATUS (env.waitpid c.1 c.2).2 ≠ 0)

/-- The `waitpid` call `c = (i, pid)` succeeds with a status that is not a
normal exit and is a termination by signal. -/
def isSignal (W : WaitStatus) (env : Env) (c : Nat × Int) : Bool :=
  decide ((env.waitpid c.1 c.2).1 ≠ -1) && !W.WIFEXITED (env.waitpid c.1 c.2).2
    && W.WIFSIGNALED (env.waitpid c.1 c.2).2

/-- The termination of child `i`, given whether its `execvp` succeeds. -/
def childTermination (env : Env) (i : Nat) : Termination :=
  if i < 13 then
    if env.execvp (argvOf i).head? (argvOf i) then .replaced (argvOf i).head? (argvOf i)
    else .execFailExit 127
  else .aborted

/-- The run of a context whose `fork()` number `m` fails after `m` successes. -/
def forkFailRun (env : Env) (m : Nat) : Run :=
  { final := ((spawned env m).emit [.forkCall m]).emit [.forkFailed],
    term := .forkFailExit EXIT_FAILURE }

/-- An environment like `sampleParent` in which the wait for child 3 fails. -/
def sampleWaitFail : Env where
  getpid := 100
  getpid_child := 0
  fork := fun i => 101 + i
  execvp := fun _ _ => true
  waitpid := fun i pid =>
    if i = 3 then (-1, 0)
    else (pid, if i < 11 then 0 else if i < 13 then 127 * 256 else 134)

/-- A parent context in which the `fork()` for index 4 fails. -/
def sampleForkFail : Env where
  getpid := 100
  getpid_child := 0
  fork := fun i => if i = 4 then -1 else 101 + i
  execvp := fun _ _ => true
  waitpid := fun _ pid => (pid, 0)

/-! ## Reaching the loops -/

theorem spawned_created (env : Env) (k : Nat) : (spawned env k).created = k := by
  induction k with
  | zero => rfl
  | succ k ih => simp [spawned, recordChild, Locals.emit, ih]

theorem spawned_length (env : Env) (k : Nat) :
    (spawned env k).child_pids.length = NCHILD := by
  induction k with
  | zero => simp [spawned, start]
  | succ k ih => simp [spawned, recordChild, Locals.emit, ih]

theorem spawned_tallies (env : Env) (k : Nat) :
    (spawned env k).exited_zero = 0 ∧ (spawned env k).exited_nonzero = 0 ∧
      (spawned env k).terminated_signal = 0 := by
  induction k with
  | zero => simp [spawned, start]
  | succ k ih => simpa [spawned, recordChild, Locals.emit] using ih

theorem spawned_trace (env : Env) (k : Nat) :
    (spawned env k).trace = .parentPid env.getpid :: (List.range k).map Event.forkCall := by
  induction k with
  | zero => simp [spawned, start]
  | succ k ih => simp [spawned, recordChild, Locals.emit, ih, List.range_succ]

theorem readCell_set_self {α : Type} (xs : List (Option α)) (i : Nat) (v : α)
    (h : i < xs.length) : readCell (xs.set i (some v)) i = some v := by
  simp [readCell, h]

theorem readCell_set_other {α : Type} (xs : List (Option α)) (i j : Nat) (v : α)
    (h : i ≠ j) : readCell (xs.set i (some v)) j = readCell xs j := by
  simp [readCell, List.getElem?_set_ne h]

theorem spawned_read (env : Env) (k j : Nat) (hk : k ≤ NCHILD) (hj : j < k) :
    readCell (spawned env k).child_pids j = some (env.fork j) := by
  induction k with
  | zero => omega
  | succ k ih =>
    have hlen := spawned_length env k
    by_cases hjk : j = k
    · subst hjk
      simp only [spawned, recordChild, Locals.emit]
      exact readCell_set_self _ _ _ (by omega)
    · simp only [spawned, recordChild, Locals.emit]
      rw [readCell_set_other _ _ _ _ (Ne.symm hjk)]
      exact ih (by omega) (by omega)

theorem spawnStep_spawned (env : Env) (k : Nat) (hk : k < NCHILD) (h : 0 < env.fork k) :
    spawnStep env k (spawned env k) = .next (spawned env (k + 1)) := by
  have hlen := spawned_length env k
  have h1 : ¬ env.fork k < 0 := by omega
  have h2 : ¬ env.fork k = 0 := by omega
  simp [spawnStep, h1, h2, Locals.emit, hlen, hk, spawned]

theorem spawnLoop_spawned (env : Env) (n : Nat) : ∀ (i fuel : Nat), i + n ≤ NCHILD →
    (∀ j, i ≤ j → j < i + n → 0 < env.fork j) →
    spawnLoop env (fuel + n) i (spawned env i)
      = spawnLoop env fuel (i + n) (spawned env (i + n)) := by
  induction n with
  | zero => intro i fuel _ _; rfl
  | succ n ih =>
    intro i fuel hle hpos
    have hi : i < NCHILD := by omega
    have e : fuel + (n + 1) = (fuel + n) + 1 := by omega
    rw [e, spawnLoop, if_pos hi, spawnStep_spawned env i hi (hpos i (le_refl _) (by omega))]
    simp only []
    rw [ih (i + 1) fuel (by omega) (fun j h1 h2 => hpos j (by omega) (by omega))]
    have e2 : i + 1 + n = i + (n + 1) := by omega
    rw [e2]

theorem classify_frame (W : WaitStatus) (st : Int) (s : Locals) :
    (classify W st s).child_pids = s.child_pids ∧ (classify W st s).created = s.created := by
  simp only [classify, Locals.emit]
  split_ifs <;> simp

theorem reap_frame (W : WaitStatus) (env : Env) (i : Nat) (pid : Int) (s : Locals) :
    (reap W env i pid s).child_pids = s.child_pids ∧ (reap W env i pid s).created = s.created := by
  simp only [reap]
  split_ifs
  · simp [Locals.emit]
  · simp [classify_frame, Locals.emit]

theorem reaped_frame (W : WaitStatus) (env : Env) (k : Nat) :
    (reaped W env k).child_pids = (spawned env NCHILD).child_pids ∧
      (reaped W env k).created = NCHILD := by
  induction k with
  | zero => exact ⟨rfl, spawned_created env NCHILD⟩
  | succ k ih => simpa [reaped, reap_frame] using ih

theorem waitStep_reaped (W : WaitStatus) (env : Env) (k : Nat) (hk : k < NCHILD) :
    waitStep W env k (reaped W env k) = .next (reaped W env (k + 1)) := by
  simp [waitStep, (reaped_frame W env k).1, spawned_read env NCHILD k (le_refl _) hk, reaped]

theorem waitLoop_reaped (W : WaitStatus) (env : Env) (n : Nat) : ∀ (i fuel : Nat),
    i + n ≤ NCHILD →
    waitLoop W env (fuel + n) i (reaped W env i)
      = waitLoop W env fuel (i + n) (reaped W env (i + n)) := by
  induction n with
  | zero => intro i fuel _; rfl
  | succ n ih =>
    intro i fuel hle
    have hi : i < (reaped W env i).created := by
      rw [(reaped_frame W env i).2]; omega
    have e : fuel + (n + 1) = (fuel + n) + 1 := by omega
    rw [e, waitLoop, if_pos hi, waitStep_reaped W env i (by omega)]
    simp only []
    rw [ih (i + 1) fuel (by omega)]
    have e2 : i + 1 + n = i + (n + 1) := by omega
    rw [e2]

theorem spawnLoop_reach (env : Env) (m : Nat) (hm : m ≤ NCHILD)
    (hpos : ∀ j, j < m → 0 < env.fork j) :
    spawnLoop env (NCHILD + 1) 0 (start env)
      = spawnLoop env (NCHILD - m + 1) m (spawned env m) := by
  have h := spawnLoop_spawned env m 0 (NCHILD - m + 1) (by omega)
    (fun j _ hj => hpos j (by omega))
  rw [show NCHILD - m + 1 + m = NCHILD + 1 by omega, Nat.zero_add] at h
  exact h

theorem main_parent (W : WaitStatus) (env : Env) (h : AllForksSucceed env) :
    main W env = some (report (reaped W env NCHILD)) := by
  have h1 : spawnLoop env (NCHILD + 1) 0 (start env) = some (.next (spawned env NCHILD)) := by
    rw [spawnLoop_reach env NCHILD (le_refl _) (fun j hj => h j hj), Nat.sub_self, spawnLoop,
      if_neg (lt_irrefl _)]
  have h2 : waitLoop W env (NCHILD + 1) 0 (spawned env NCHILD)
      = some (.next (reaped W env NCHILD)) := by
    have h := waitLoop_reaped W env NCHILD 0 1 (by omega)
    rw [show 1 + NCHILD = NCHILD + 1 by omega, Nat.zero_add] at h
    have e0 : reaped W env 0 = spawned env NCHILD := rfl
    rw [e0] at h
    rw [h, waitLoop, if_neg (by rw [(reaped_frame W env NCHILD).2]; exact lt_irrefl _)]
  simp only [main, mainFuel, h1, h2]

theorem main_halt (W : WaitStatus) (env : Env) (m : Nat) (hm : m < NCHILD)
    (hpos : ∀ j, j < m → 0 < env.fork j) (s : Locals) (t : Termination)
    (hstep : spawnStep env m (spawned env m) = .halt s t) :
    main W env = some { final := s, term := t } := by
  have h1 : spawnLoop env (NCHILD + 1) 0 (start env) = some (.halt s t) := by
    rw [spawnLoop_reach env m (le_of_lt hm) hpos, spawnLoop, if_pos hm, hstep]
  simp only [main, mainFuel, h1]

/-! ## The classification of a status -/

theorem glibc_signaled_not_exited (st : Int) (h : glibc.WIFSIGNALED st = true) :
    glibc.WIFEXITED st = false := by
  simp only [glibc, decide_eq_true_eq, decide_eq_false_iff_not] at *
  intro h0
  rw [h0] at h
  revert h
  decide

/-- C1: for a successful `waitpid` (return value other than -1) storing the
status `st`, the wait-loop body adds the call, the report line and one
classification detail to the trace, and: a normal exit with code 0 increments
only `exited_zero`; a normal exit with a nonzero code increments only
`exited_nonzero` and prints that code; a termination by signal increments only
`terminated_signal` and prints the signal number; a status that is neither is
printed as unknown and changes no counter.  `created` and `child_pids` are the
same in every case.  (On the GNU decoding a signal termination is never a
normal exit, so the cases are exclusive.) -/
theorem C1_classification (W : WaitStatus) (env : Env) (i : Nat) (pid : Int) (s : Locals)
    (hw : (env.waitpid i pid).1 ≠ -1) :
    (W.WIFEXITED (env.waitpid i pid).2 = true → W.WEXITSTATUS (env.waitpid i pid).2 = 0 →
      reap W env i pid s = { s with
        exited_zero := s.exited_zero + 1,
        trace := s.trace ++ [.waitCall i pid, .waitedFor i pid, .exitedNormally 0] }) ∧
    (W.WIFEXITED (env.waitpid i pid).2 = true → W.WEXITSTATUS (env.waitpid i pid).2 ≠ 0 →
      reap W env i pid s = { s with
        exited_nonzero := s.exited_nonzero + 1,
        trace := s.trace ++ [.waitCall i pid, .waitedFor i pid,
          .exitedNormally (W.WEXITSTATUS (env.waitpid i pid).2)] }) ∧
    (W.WIFEXITED (env.waitpid i pid).2 = false → W.WIFSIGNALED (env.waitpid i pid).2 = true →
      reap W env i pid s = { s with
        terminated_signal := s.terminated_signal + 1,
        trace := s.trace ++ [.waitCall i pid, .waitedFor i pid,
          .terminatedBySignal (W.WTERMSIG (env.waitpid i pid).2)] }) ∧
    (W.WIFEXITED (env.waitpid i pid).2 = false → W.WIFSIGNALED (env.waitpid i pid).2 = false →
      reap W env i pid s = { s with
        trace := s.trace ++ [.waitCall i pid, .waitedFor i pid, .endedAbnormally] }) ∧
    (reap W env i pid s).created = s.created ∧
    (reap W env i pid s).child_pids = s.child_pids ∧
    (∀ st, glibc.WIFSIGNALED st = true → glibc.WIFEXITED st = false) := by
  refine ⟨?_, ?_, ?_, ?_, (reap_frame W env i pid s).2, (reap_frame W env i pid s).1,
    glibc_signaled_not_exited⟩
  · intro h1 h2
    simp [reap, classify, Locals.emit, hw, h1, h2]
  · intro h1 h2
    simp [reap, classify, Locals.emit, hw, h1, h2]
  · intro h1 h2
    simp [reap, classify, Locals.emit, hw, h1, h2]
  · intro h1 h2
    simp [reap, classify, Locals.emit, hw, h1, h2]

/-- Witness of C1: child 11 of the sample parent, reaped with status
`127 * 256`. -/
theorem C1_classification_witness :
    (sampleParent.waitpid 11 112).1 ≠ -1 ∧
    (reap glibc sampleParent 11 112 (start sampleParent)).outcomes = (0, 1, 0) ∧
    details (reap glibc sampleParent 11 112 (start sampleParent)).trace
      = [.exitedNormally 127] := by
  have h := C1_classification glibc sampleParent 11 112 (start sampleParent) (by decide)
  refine ⟨by decide, ?_, ?_⟩
  · rw [h.2.1 (by decide) (by decide)]; rfl
  · rw [h.2.1 (by decide) (by decide)]; decide

/-! ## The job table -/

theorem types_read : ∀ i, i < NCHILD → readCell jobTable.types i
    = some (if i < 11 then JOB_EXEC else if i < 13 then JOB_INVALID else JOB_ABORT) := by
  decide

theorem argvs_read : ∀ i, i < NCHILD → readCell jobTable.argvs i
    = some (if i < 13 then .args (argvOf i) else .null) := by
  decide

/-- C6: the job table has exactly 15 entries in both arrays, all assigned;
entries 0-10 are `JOB_EXEC` with a non-empty argument vector, the 11 vectors
being pairwise distinct; entry 6 is `echo Hello Garrett`; entries 11 and 12
are `JOB_INVALID` naming `nonexistentcmd1` and `nonexistentcmd2`; entries 13
and 14 are `JOB_ABORT` with a null argument vector.  The table is a closed
constant: it has no parameter, and the locals threaded through the spawn and
wait loops do not contain it. -/
theorem C6_job_table :
    jobTable.types.length = 15 ∧ jobTable.argvs.length = 15 ∧
    (∀ i, i < 11 → readCell jobTable.types i = some JOB_EXEC ∧
      ∃ a, readCell jobTable.argvs i = some (.args a) ∧ a ≠ []) ∧
    ((List.range 11).map argvOf).Nodup ∧
    readCell jobTable.argvs 6 = some (.args ["echo", "Hello", "Garrett"]) ∧
    readCell jobTable.types 11 = some JOB_INVALID ∧
    readCell jobTable.argvs 11 = some (.args ["nonexistentcmd1"]) ∧
    readCell jobTable.types 12 = some JOB_INVALID ∧
    readCell jobTable.argvs 12 = some (.args ["nonexistentcmd2"]) ∧
    (∀ i, 13 ≤ i → i < 15 → readCell jobTable.types i = some JOB_ABORT ∧
      readCell jobTable.argvs i = some .null) ∧
    (∀ i, 15 ≤ i → readCell jobTable.types i = none ∧ readCell jobTable.argvs i = none) := by
  refine ⟨by decide, by decide, ?_, by decide, by decide, by decide, by decide, by decide,
    by decide, by decide, ?_⟩
  · intro i hi
    refine ⟨?_, argvOf i, ?_, ?_⟩
    · rw [types_read i (by unfold NCHILD; omega), if_pos hi]
    · rw [argvs_read i (by unfold NCHILD; omega), if_pos (by omega)]
    · revert i; decide
  · intro i hi
    have h1 : jobTable.types.length = 15 := by decide
    have h2 : jobTable.argvs.length = 15 := by decide
    simp [readCell, List.getElem?_eq_none (h1 ▸ hi), List.getElem?_eq_none (h2 ▸ hi)]

/-! ## Projections of traces -/

theorem forkIndices_append (a b : List Event) :
    forkIndices (a ++ b) = forkIndices a ++ forkIndices b := by
  simp [forkIndices]

theorem waitCalls_append (a b : List Event) :
    waitCalls (a ++ b) = waitCalls a ++ waitCalls b := by
  simp [waitCalls]

theorem reportIndices_append (a b : List Event) :
    reportIndices (a ++ b) = reportIndices a ++ reportIndices b := by
  simp [reportIndices]

theorem summaries_append (a b : List Event) :
    summaries (a ++ b) = summaries a ++ summaries b := by
  simp [summaries]

theorem details_append (a b : List Event) :
    details (a ++ b) = details a ++ details b := by
  simp [details]

theorem spawned_forkIndices (env : Env) (k : Nat) :
    forkIndices (spawned env k).trace = List.range k := by
  induction k with
  | zero => rfl
  | succ k ih =>
    simp only [spawned, recordChild, Locals.emit, forkIndices_append, ih, List.range_succ]
    rfl

theorem spawned_quiet (env : Env) (k : Nat) :
    waitCalls (spawned env k).trace = [] ∧ reportIndices (spawned env k).trace = [] ∧
      summaries (spawned env k).trace = [] ∧ details (spawned env k).trace = [] ∧
      (spawned env k).trace.count .waitFailed = 0 ∧
      (spawned env k).trace.count .endedAbnormally = 0 := by
  induction k with
  | zero => simp [spawned, start, waitCalls, reportIndices, summaries, details]
  | succ k ih =>
    obtain ⟨h1, h2, h3, h4, h5, h6⟩ := ih
    simp only [spawned, recordChild, Locals.emit, waitCalls_append, reportIndices_append,
      summaries_append, details_append, List.count_append, h1, h2, h3, h4, h5, h6]
    simp [waitCalls, reportIndices, summaries, details]

/-- Effect of one wait-loop body on the counters and on the projections of the
trace. -/
theorem reap_effect (W : WaitStatus) (env : Env) (i : Nat) (pid : Int) (s : Locals) :
    waitCalls (reap W env i pid s).trace = waitCalls s.trace ++ [(i, pid)] ∧
    forkIndices (reap W env i pid s).trace = forkIndices s.trace ∧
    summaries (reap W env i pid s).trace = summaries s.trace ∧
    reportIndices (reap W env i pid s).trace
      = reportIndices s.trace ++ (if (env.waitpid i pid).1 = -1 then [] else [i]) ∧
    (reap W env i pid s).trace.count .waitFailed
      = s.trace.count .waitFailed + (if (env.waitpid i pid).1 = -1 then 1 else 0) ∧
    (reap W env i pid s).exited_zero + (reap W env i pid s).exited_nonzero
        + (reap W env i pid s).terminated_signal
        + (reap W env i pid s).trace.count .endedAbnormally
      = s.exited_zero + s.exited_nonzero + s.terminated_signal
        + s.trace.count .endedAbnormally + (if (env.waitpid i pid).1 = -1 then 0 else 1) := by
  simp only [reap, classify, Locals.emit]
  split_ifs <;>
    simp [waitCalls, forkIndices, summaries, reportIndices, List.count_append] <;> omega

/-! ## The three kinds of execution context -/

theorem reaped_effect (W : WaitStatus) (env : Env) (k : Nat) :
    waitCalls (reaped W env k).trace = (List.range k).map (fun i => (i, env.fork i)) ∧
    forkIndices (reaped W env k).trace = List.range NCHILD ∧
    summaries (reaped W env k).trace = [] ∧
    reportIndices (reaped W env k).trace = (List.range k).filter (waitOk env) ∧
    (reportIndices (reaped W env k).trace).length
      + (reaped W env k).trace.count .waitFailed = k ∧
    (reaped W env k).exited_zero + (reaped W env k).exited_nonzero
        + (reaped W env k).terminated_signal
        + (reaped W env k).trace.count .endedAbnormally
      = (reportIndices (reaped W env k).trace).length := by
  induction k with
  | zero =>
    obtain ⟨h1, h2, h3, _, h5, h6⟩ := spawned_quiet env NCHILD
    obtain ⟨t1, t2, t3⟩ := spawned_tallies env NCHILD
    simp [reaped, h1, h2, h3, h5, h6, t1, t2, t3, spawned_forkIndices]
  | succ k ih =>
    obtain ⟨e1, e2, e3, e4, e5, e6⟩ := reap_effect W env k (env.fork k) (reaped W env k)
    obtain ⟨i1, i2, i3, i4, i5, i6⟩ := ih
    simp only [reaped]
    rw [e1, e2, e3, e4, e5, e6]
    refine ⟨?_, i2, i3, ?_, ?_, ?_⟩
    · rw [i1, List.range_succ, List.map_append]; rfl
    · rw [i4, List.range_succ, List.filter_append]
      by_cases hw : (env.waitpid k (env.fork k)).1 = -1 <;> simp [waitOk, hw]
    · by_cases hw : (env.waitpid k (env.fork k)).1 = -1 <;> simp [hw] <;> omega
    · by_cases hw : (env.waitpid k (env.fork k)).1 = -1 <;> simp [hw] <;> omega

/-- What the child branch does for each index of the table. -/
theorem child_spec (env : Env) (i : Nat) (hi : i < NCHILD) (s : Locals) :
    child env i s =
      if i < 11 then
        if env.execvp (argvOf i).head? (argvOf i) then
          .halt (s.emit [.childWill i env.getpid_child, .execAnnounce (argvOf i), .flush,
            .execvpCall (argvOf i).head? (argvOf i)])
            (.replaced (argvOf i).head? (argvOf i))
        else
          .halt (s.emit [.childWill i env.getpid_child, .execAnnounce (argvOf i), .flush,
            .execvpCall (argvOf i).head? (argvOf i), .execFailed]) (.execFailExit 127)
      else if i < 13 then
        if env.execvp (argvOf i).head? (argvOf i) then
          .halt (s.emit [.childWill i env.getpid_child, .invalidAnnounce (argvOf i).head?, .flush,
            .execvpCall (argvOf i).head? (argvOf i)])
            (.replaced (argvOf i).head? (argvOf i))
        else
          .halt (s.emit [.childWill i env.getpid_child, .invalidAnnounce (argvOf i).head?, .flush,
            .execvpCall (argvOf i).head? (argvOf i), .invalidExecFailed]) (.execFailExit 127)
      else
        .halt (s.emit [.childWill i env.getpid_child, .abortAnnounce, .flush]) .aborted := by
  unfold child
  rw [types_read i hi, argvs_read i hi]
  by_cases h11 : i < 11
  · have h13 : i < 13 := by omega
    simp only [h11, h13, if_true]
    split_ifs <;> simp [Locals.emit]
  · by_cases h13 : i < 13
    · simp only [h11, h13, if_true, if_false]
      have e1 : ¬ JOB_INVALID = JOB_EXEC := by decide
      simp only [e1, if_true, if_false]
      split_ifs <;> simp [Locals.emit]
    · simp only [h11, h13, if_false]
      have e1 : ¬ JOB_ABORT = JOB_EXEC := by decide
      have e2 : ¬ JOB_ABORT = JOB_INVALID := by decide
      simp [e1, e2, Locals.emit]

theorem child_result (env : Env) (i : Nat) (hi : i < NCHILD) (s : Locals) :
    ∃ s', child env i s = .halt s' (childTermination env i) ∧
      forkIndices s'.trace = forkIndices s.trace ∧ waitCalls s'.trace = waitCalls s.trace ∧
      summaries s'.trace = summaries s.trace ∧ s'.created = s.created ∧
      s'.child_pids = s.child_pids := by
  rw [child_spec env i hi s]
  unfold childTermination
  by_cases h11 : i < 11
  · have h13 : i < 13 := by omega
    simp only [h11, h13, if_true]
    split_ifs <;>
      exact ⟨_, rfl, by simp [Locals.emit, forkIndices], by simp [Locals.emit, waitCalls],
        by simp [Locals.emit, summaries], rfl, rfl⟩
  · by_cases h13 : i < 13
    · simp only [h11, h13, if_true, if_false]
      split_ifs <;>
        exact ⟨_, rfl, by simp [Locals.emit, forkIndices], by simp [Locals.emit, waitCalls],
          by simp [Locals.emit, summaries], rfl, rfl⟩
    · simp only [h11, h13, if_false]
      exact ⟨_, rfl, by simp [Locals.emit, forkIndices], by simp [Locals.emit, waitCalls],
        by simp [Locals.emit, summaries], rfl, rfl⟩

theorem first_nonpos (f : Nat → Int) (n : Nat) :
    (∀ j, j < n → 0 < f j) ∨ ∃ m, m < n ∧ (∀ j, j < m → 0 < f j) ∧ f m ≤ 0 := by
  induction n with
  | zero => left; intro j hj; omega
  | succ n ih =>
    rcases ih with h | ⟨m, hm, h1, h2⟩
    · by_cases hn : 0 < f n
      · left
        intro j hj
        rcases Nat.lt_succ_iff_lt_or_eq.mp hj with h' | h'
        · exact h j h'
        · rw [h']; exact hn
      · right
        exact ⟨n, Nat.lt_succ_self n, h, by omega⟩
    · right
      exact ⟨m, Nat.lt_succ_of_lt hm, h1, h2⟩

theorem main_forkFail (W : WaitStatus) (env : Env) (m : Nat) (hm : m < NCHILD)
    (hpos : ∀ j, j < m → 0 < env.fork j) (hneg : env.fork m < 0) :
    main W env = some (forkFailRun env m) := by
  apply main_halt W env m hm hpos
  simp [spawnStep, hneg]

theorem main_child (W : WaitStatus) (env : Env) (m : Nat) (h : ChildContext env m) :
    ∃ s, main W env = some { final := s, term := childTermination env m } ∧
      forkIndices s.trace = List.range (m + 1) ∧ waitCalls s.trace = [] ∧
      summaries s.trace = [] ∧ s.created = m ∧
      s.child_pids = (spawned env m).child_pids := by
  obtain ⟨hm, hpos, hz⟩ := h
  obtain ⟨s, hs, h1, h2, h3, h4, h5⟩ :=
    child_result env m hm ((spawned env m).emit [.forkCall m])
  refine ⟨s, ?_, ?_, ?_, ?_, ?_, h5⟩
  · apply main_halt W env m hm hpos
    simp [spawnStep, hz, hs]
  · rw [h1]
    simp only [Locals.emit, forkIndices_append, spawned_forkIndices, List.range_succ]
    rfl
  · rw [h2]
    simp only [Locals.emit, waitCalls_append, (spawned_quiet env m).1]
    rfl
  · rw [h3]
    simp only [Locals.emit, summaries_append, (spawned_quiet env m).2.2.1]
    rfl
  · rw [h4]
    exact spawned_created env m

theorem main_cases (W : WaitStatus) (env : Env) :
    (AllForksSucceed env ∧ main W env = some (report (reaped W env NCHILD))) ∨
    (∃ m, m < NCHILD ∧ (∀ j, j < m → 0 < env.fork j) ∧ env.fork m < 0 ∧
      main W env = some (forkFailRun env m)) ∨
    (∃ m, ChildContext env m ∧
      ∃ s, main W env = some { final := s, term := childTermination env m } ∧
        forkIndices s.trace = List.range (m + 1) ∧ waitCalls s.trace = [] ∧
        summaries s.trace = [] ∧ s.created = m ∧
        s.child_pids = (spawned env m).child_pids) := by
  rcases first_nonpos env.fork NCHILD with h | ⟨m, hm, hpos, hle⟩
  · exact Or.inl ⟨h, main_parent W env h⟩
  · by_cases hz : env.fork m = 0
    · exact Or.inr (Or.inr ⟨m, ⟨hm, hpos, hz⟩, main_child W env m ⟨hm, hpos, hz⟩⟩)
    · exact Or.inr (Or.inl ⟨m, hm, hpos, by omega, main_forkFail W env m hm hpos (by omega)⟩)

theorem reap_outcomes (W : WaitStatus) (env : Env) (i : Nat) (pid : Int) (s : Locals) :
    (reap W env i pid s).outcomes
      = if (env.waitpid i pid).1 = -1 then s.outcomes
        else tallyStep W s.outcomes (env.waitpid i pid).2 := by
  simp only [reap, classify, tallyStep, Locals.outcomes, Locals.emit]
  split_ifs <;> rfl

theorem reaped_outcomes (W : WaitStatus) (env : Env) (k : Nat) :
    (reaped W env k).outcomes
      = (((List.range k).filter (waitOk env)).map (statusAt env)).foldl (tallyStep W) (0, 0, 0) := by
  induction k with
  | zero =>
    obtain ⟨t1, t2, t3⟩ := spawned_tallies env NCHILD
    simp [reaped, Locals.outcomes, t1, t2, t3]
  | succ k ih =>
    simp only [reaped]
    rw [reap_outcomes, ih, List.range_succ, List.filter_append, List.map_append, List.foldl_append]
    by_cases hw : (env.waitpid k (env.fork k)).1 = -1 <;> simp [waitOk, statusAt, hw]

theorem report_final (s : Locals) :
    (report s).final.created = s.created ∧ (report s).final.child_pids = s.child_pids ∧
    (report s).final.outcomes = s.outcomes ∧
    waitCalls (report s).final.trace = waitCalls s.trace ∧
    forkIndices (report s).final.trace = forkIndices s.trace ∧
    reportIndices (report s).final.trace = reportIndices s.trace ∧
    (report s).final.trace.count .waitFailed = s.trace.count .waitFailed ∧
    (report s).final.trace.count .endedAbnormally = s.trace.count .endedAbnormally ∧
    summaries (report s).final.trace = summaries s.trace
      ++ [(s.created, s.exited_zero, s.exited_nonzero, s.terminated_signal)] := by
  simp [report, Locals.emit, Locals.outcomes, waitCalls, forkIndices, reportIndices, summaries,
    List.count_append]

/-! ## The wait loop -/

/-- C2: when all process creations succeed, whatever the wait results are, the
run ends with `created = 15`, the calls of `waitpid` are made for the loop
indices 0, 1, ..., created-1 in this order, one call per index, each on the
identifier recorded in `child_pids` at that index (the one `fork()` returned
for it); the per-child report lines are those of the successful waits, in
strictly increasing index order. -/
theorem C2_wait_order (W : WaitStatus) (env : Env) (h : AllForksSucceed env) :
    ∃ r, main W env = some r ∧ r.final.created = NCHILD ∧
      (∀ i, i < r.final.created → readCell r.final.child_pids i = some (env.fork i)) ∧
      waitCalls r.final.trace = (List.range r.final.created).map (fun i => (i, env.fork i)) ∧
      (waitCalls r.final.trace).map (fun c => some c.2)
        = (List.range r.final.created).map (readCell r.final.child_pids) ∧
      reportIndices r.final.trace = (List.range r.final.created).filter (waitOk env) ∧
      (reportIndices r.final.trace).Pairwise (· < ·) := by
  obtain ⟨f1, f2, _, f4, _, f6, _⟩ := report_final (reaped W env NCHILD)
  obtain ⟨e1, _, _, e4, _⟩ := reaped_effect W env NCHILD
  obtain ⟨g1, g2⟩ := reaped_frame W env NCHILD
  have hread : ∀ i, i < NCHILD →
      readCell (report (reaped W env NCHILD)).final.child_pids i = some (env.fork i) := by
    intro i hi
    rw [f2, g1]
    exact spawned_read env NCHILD i (le_refl _) hi
  refine ⟨_, main_parent W env h, by rw [f1, g2], ?_, ?_, ?_, ?_, ?_⟩
  · intro i hi
    rw [f1, g2] at hi
    exact hread i hi
  · rw [f4, e1, f1, g2]
  · rw [f4, e1, f1, g2, List.map_map]
    apply List.map_congr_left
    intro i hi
    exact (hread i (List.mem_range.mp hi)).symm
  · rw [f6, e4, f1, g2]
  · rw [f6, e4]
    exact List.Pairwise.sublist (List.filter_sublist _) (List.pairwise_lt_range _)

/-- Witness of C2: the sample parent context. -/
theorem C2_wait_order_witness :
    AllForksSucceed sampleParent ∧
    (main glibc sampleParent).map (fun r => waitCalls r.final.trace)
      = some [(0, 101), (1, 102), (2, 103), (3, 104), (4, 105), (5, 106), (6, 107), (7, 108),
          (8, 109), (9, 110), (10, 111), (11, 112), (12, 113), (13, 114), (14, 115)] := by
  have hs : AllForksSucceed sampleParent := by unfold AllForksSucceed; decide
  obtain ⟨r, hr, hc, _, hw, _⟩ := C2_wait_order glibc sampleParent hs
  refine ⟨hs, ?_⟩
  rw [hr, Option.map_some', hw, hc]
  decide

/-- C3: in every run that prints the summary, the three outcome counters plus
the number of statuses printed as unknown equal the number of successful
waits (one report line each, as many as the wait-loop indices whose `waitpid`
does not return -1); this number is at most `created`; together with the
number of failed waits it is the number of `waitpid` calls, which equals
`created`; and the summary printed is the one of these final counters. -/
theorem C3_tally_balance (W : WaitStatus) (env : Env) (r : Run)
    (hr : main W env = some r) (hs : summaries r.final.trace ≠ []) :
    r.final.exited_zero + r.final.exited_nonzero + r.final.terminated_signal
        + r.final.trace.count .endedAbnormally = (reportIndices r.final.trace).length ∧
    (reportIndices r.final.trace).length
      = ((List.range r.final.created).filter (waitOk env)).length ∧
    (reportIndices r.final.trace).length ≤ r.final.created ∧
    (reportIndices r.final.trace).length + r.final.trace.count .waitFailed
      = (waitCalls r.final.trace).length ∧
    (waitCalls r.final.trace).length = r.final.created ∧
    summaries r.final.trace = [(r.final.created, r.final.exited_zero,
      r.final.exited_nonzero, r.final.terminated_signal)] := by
  rcases main_cases W env with ⟨_, hm⟩ | ⟨m, _, _, _, hm⟩ | ⟨m, _, s, hm, _, _, h3, _, _⟩
  · rw [hm] at hr
    cases hr
    obtain ⟨f1, _, f3, f4, _, f6, f7, f8, f9⟩ := report_final (reaped W env NCHILD)
    obtain ⟨e1, _, e3, e4, e5, e6⟩ := reaped_effect W env NCHILD
    obtain ⟨_, g2⟩ := reaped_frame W env NCHILD
    simp only [Locals.outcomes, Prod.mk.injEq] at f3
    obtain ⟨o1, o2, o3⟩ := f3
    rw [f9, e3, f6, f7, f8, f4, f1, g2, o1, o2, o3, e1]
    refine ⟨e6, by rw [e4], ?_, ?_, by simp, ?_⟩
    · rw [e4]
      calc ((List.range NCHILD).filter (waitOk env)).length
          ≤ (List.range NCHILD).length := List.length_filter_le _ _
        _ = NCHILD := List.length_range _
    · rw [e5]; simp
    · rw [← o1, ← o2, ← o3, ← g2]; rfl
  · rw [hm] at hr
    cases hr
    exfalso
    apply hs
    simp only [forkFailRun, Locals.emit, summaries_append, (spawned_quiet env m).2.2.1]
    rfl
  · rw [hm] at hr
    cases hr
    exact absurd h3 hs

/-- Witness of C3: the sample parent context, whose summary is
`15, 11, 2, 2`. -/
theorem C3_tally_balance_witness :
    main glibc sampleParent = some (report (reaped glibc sampleParent NCHILD)) ∧
    summaries (report (reaped glibc sampleParent NCHILD)).final.trace = [(15, 11, 2, 2)] ∧
    (waitCalls (report (reaped glibc sampleParent NCHILD)).final.trace).length
      = (report (reaped glibc sampleParent NCHILD)).final.created := by
  have hm : main glibc sampleParent = some (report (reaped glibc sampleParent NCHILD)) := by
    decide
  have h := C3_tally_balance glibc sampleParent _ hm (by decide)
  exact ⟨hm, by decide, h.2.2.2.2.1⟩

/-- C5: a `waitpid` that fails (returns -1) at loop index `i` changes no
counter and prints no report or classification line: the body only logs the
call and the failure message, and the loop goes on with index `i + 1`.  In a
run where all creations succeed and the wait of record `i` fails, `waitpid`
is still called once for each of the 15 recorded identifiers in order, and
the final outcome counters are the tally of the statuses of the successful
waits of the other records alone. -/
theorem C5_wait_failure (W : WaitStatus) (env : Env) (i : Nat) (pid : Int) (s : Locals)
    (hfail : (env.waitpid i pid).1 = -1) :
    reap W env i pid s = { s with trace := s.trace ++ [.waitCall i pid, .waitFailed] } ∧
    (readCell s.child_pids i = some pid → ∀ fuel, i < s.created →
      waitLoop W env (fuel + 1) i s
        = waitLoop W env fuel (i + 1)
            { s with trace := s.trace ++ [.waitCall i pid, .waitFailed] }) ∧
    (AllForksSucceed env → pid = env.fork i →
      ∃ r, main W env = some r ∧
        waitCalls r.final.trace = (List.range NCHILD).map (fun j => (j, env.fork j)) ∧
        reportIndices r.final.trace
          = (List.range NCHILD).filter (fun j => decide (j ≠ i) && waitOk env j) ∧
        r.final.outcomes
          = (((List.range NCHILD).filter (fun j => decide (j ≠ i) && waitOk env j)).map
              (statusAt env)).foldl (tallyStep W) (0, 0, 0)) := by
  have hreap : reap W env i pid s
      = { s with trace := s.trace ++ [.waitCall i pid, .waitFailed] } := by
    simp [reap, Locals.emit, hfail]
  refine ⟨hreap, ?_, ?_⟩
  · intro hread fuel hi
    rw [waitLoop, if_pos hi]
    simp only [waitStep, hread, hreap]
  · intro hall hpid
    subst hpid
    obtain ⟨_, _, f3, f4, _, f6, _⟩ := report_final (reaped W env NCHILD)
    obtain ⟨e1, _, _, e4, _⟩ := reaped_effect W env NCHILD
    have hflt : (List.range NCHILD).filter (fun j => decide (j ≠ i) && waitOk env j)
        = (List.range NCHILD).filter (waitOk env) := by
      apply List.filter_congr
      intro j _
      by_cases hji : j = i
      · subst hji
        simp [waitOk, hfail]
      · simp [hji]
    refine ⟨_, main_parent W env hall, by rw [f4, e1], by rw [f6, e4, hflt], ?_⟩
    rw [f3, reaped_outcomes, hflt]

/-- Witness of C5: the wait for child 3 fails; ten children are counted as
exited with 0 instead of eleven, and every other child is reported. -/
theorem C5_wait_failure_witness :
    (sampleWaitFail.waitpid 3 104).1 = -1 ∧
    (main glibc sampleWaitFail).map (fun r => (r.final.outcomes, reportIndices r.final.trace))
      = some ((10, 2, 2), [0, 1, 2, 4, 5, 6, 7, 8, 9, 10, 11, 12, 13, 14]) := by
  have h := C5_wait_failure glibc sampleWaitFail 3 104 (start sampleWaitFail) (by decide)
  obtain ⟨r, hr, _, hi, ho⟩ := h.2.2 (by unfold AllForksSucceed; decide) (by decide)
  refine ⟨by decide, ?_⟩
  rw [hr, Option.map_some', hi, ho]
  decide

/-! ## Failure of a process creation -/

/-- C4: in the parent context (no `fork()` returns 0) the run ends with a
nonzero exit status exactly when some `fork()` fails.  When the call for index
`i` is the first to fail, the parent leaves through `exit(EXIT_FAILURE)` at
once: `fork()` was called for the indices 0..i only, `waitpid` is never
called, no summary is printed, and `i` children had been created.  When no
call fails the run returns `EXIT_SUCCESS = 0`, whatever the wait results. -/
theorem C4_fork_failure (W : WaitStatus) (env : Env) (hp : ParentContext env) :
    ∃ r, main W env = some r ∧
      ((∃ c, r.term.exitStatus = some c ∧ c ≠ 0) ↔ ∃ i, i < NCHILD ∧ env.fork i < 0) ∧
      (∀ i, i < NCHILD → env.fork i < 0 → (∀ j, j < i → ¬ env.fork j < 0) →
        r.term = .forkFailExit EXIT_FAILURE ∧ forkIndices r.final.trace = List.range (i + 1) ∧
        waitCalls r.final.trace = [] ∧ summaries r.final.trace = [] ∧ r.final.created = i) ∧
      ((∀ i, i < NCHILD → ¬ env.fork i < 0) →
        r.term = .returned EXIT_SUCCESS ∧ r.term.exitStatus = some 0 ∧
        summaries r.final.trace ≠ []) := by
  rcases main_cases W env with ⟨hall, hm⟩ | ⟨m, hm, hpos, hneg, hrun⟩ | ⟨m, hc, _⟩
  · refine ⟨_, hm, ?_, ?_, ?_⟩
    · constructor
      · rintro ⟨c, hc, hne⟩
        simp only [report, Termination.exitStatus, EXIT_SUCCESS, Option.some.injEq] at hc
        exact absurd hc.symm hne
      · rintro ⟨i, hi, hneg⟩
        have := hall i hi
        omega
    · intro i hi hneg _
      have := hall i hi
      omega
    · intro _
      refine ⟨rfl, rfl, ?_⟩
      rw [(report_final _).2.2.2.2.2.2.2.2]
      simp
  · refine ⟨_, hrun, ?_, ?_, ?_⟩
    · constructor
      · intro _
        exact ⟨m, hm, hneg⟩
      · intro _
        exact ⟨EXIT_FAILURE, rfl, by decide⟩
    · intro i hi hneg' hfirst
      have h1 : ¬ m < i := fun h => hfirst m h hneg
      have h2 : ¬ i < m := fun h => by have := hpos i h; omega
      have e : i = m := by omega
      subst e
      refine ⟨rfl, ?_, ?_, ?_, ?_⟩
      · simp only [forkFailRun, Locals.emit, forkIndices_append, spawned_forkIndices,
          List.range_succ]
        simp [forkIndices]
      · simp only [forkFailRun, Locals.emit, waitCalls_append, (spawned_quiet env i).1]
        rfl
      · simp only [forkFailRun, Locals.emit, summaries_append, (spawned_quiet env i).2.2.1]
        rfl
      · exact spawned_created env i
    · intro hno
      exact absurd hneg (hno m hm)
  · exact absurd hc.2.2 (hp m hc.1)

/-- Witness of C4: the `fork()` for index 4 fails. -/
theorem C4_fork_failure_witness :
    ParentContext sampleForkFail ∧
    (main glibc sampleForkFail).map
        (fun r => (r.term, forkIndices r.final.trace, waitCalls r.final.trace,
          summaries r.final.trace))
      = some (.forkFailExit 1, [0, 1, 2, 3, 4], [], []) := by
  have hp : ParentContext sampleForkFail := by unfold ParentContext; decide
  obtain ⟨r, hr, _, h2, _⟩ := C4_fork_failure glibc sampleForkFail hp
  obtain ⟨t1, t2, t3, t4, _⟩ := h2 4 (by decide) (by decide) (by decide)
  refine ⟨hp, ?_⟩
  rw [hr, Option.map_some', t1, t2, t3, t4]
  rfl

/-! ## The child branch -/

/-- C7: in the execution context of child `i` (any `i < 15`) the run ends
inside the child branch: `fork()` is not called again after call `i`,
`waitpid` is never called and no summary is printed.  The job kind is one of
the three of the enumeration and fixes the end: for `JOB_EXEC` and
`JOB_INVALID` a failing `execvp` leads to exit status exactly 127 (a
succeeding one replaces the image); for `JOB_ABORT` the child ends in
`abort()` and hands over no exit status.  The safety `_exit(EXIT_FAILURE)` is
not reached, nor is the end of `main`. -/
theorem C7_child_terminal (W : WaitStatus) (env : Env) (i : Nat) (h : ChildContext env i) :
    ∃ r, main W env = some r ∧
      forkIndices r.final.trace = List.range (i + 1) ∧ waitCalls r.final.trace = [] ∧
      summaries r.final.trace = [] ∧
      (readCell jobTable.types i = some JOB_EXEC ∨ readCell jobTable.types i = some JOB_INVALID ∨
        readCell jobTable.types i = some JOB_ABORT) ∧
      (∀ a, (readCell jobTable.types i = some JOB_EXEC ∨
            readCell jobTable.types i = some JOB_INVALID) →
          readCell jobTable.argvs i = some (.args a) →
          (env.execvp a.head? a = false →
            r.term = .execFailExit 127 ∧ r.term.exitStatus = some 127) ∧
          (env.execvp a.head? a = true → r.term = .replaced a.head? a)) ∧
      (readCell jobTable.types i = some JOB_ABORT →
        r.term = .aborted ∧ r.term.exitStatus = none) ∧
      (∀ c, r.term ≠ .fallbackExit c) ∧ (∀ c, r.term ≠ .returned c) ∧
      r.term ≠ .undefinedBehaviour := by
  obtain ⟨s, hm, h1, h2, h3, _⟩ := main_child W env i h
  have hi := h.1
  have ht := types_read i hi
  have ha := argvs_read i hi
  refine ⟨_, hm, h1, h2, h3, ?_, ?_, ?_, ?_, ?_, ?_⟩
  · rw [ht]
    by_cases h11 : i < 11
    · simp [h11]
    · by_cases h13 : i < 13 <;> simp [h11, h13]
  · intro a hk hargs
    have h13 : i < 13 := by
      by_contra hn
      have h11 : ¬ i < 11 := by omega
      rw [ht] at hk
      simp only [h11, hn, if_false, Option.some.injEq] at hk
      revert hk
      decide
    rw [ha, if_pos h13] at hargs
    have ea : argvOf i = a := by
      simp only [Option.some.injEq, ArgvPtr.args.injEq] at hargs
      exact hargs
    subst ea
    constructor
    · intro hf
      simp [childTermination, h13, hf, Termination.exitStatus]
    · intro hs
      simp [childTermination, h13, hs]
  · intro hk
    have h13 : ¬ i < 13 := by
      intro hlt
      rw [ht] at hk
      by_cases h11 : i < 11
      · simp only [h11, if_true, Option.some.injEq] at hk
        revert hk
        decide
      · simp only [h11, hlt, if_true, if_false, Option.some.injEq] at hk
        revert hk
        decide
    simp [childTermination, h13, Termination.exitStatus]
  · intro c
    simp only [childTermination]
    split_ifs <;> simp
  · intro c
    simp only [childTermination]
    split_ifs <;> simp
  · simp only [childTermination]
    split_ifs <;> simp

/-- Witness of C7: child 12 (an invalid command) whose `execvp` fails. -/
theorem C7_child_terminal_witness :
    ChildContext (sampleChild 12 false) 12 ∧
    (main glibc (sampleChild 12 false)).map (fun r => (r.term, forkIndices r.final.trace))
      = some (.execFailExit 127, List.range 13) := by
  have hc : ChildContext (sampleChild 12 false) 12 := by unfold ChildContext; decide
  obtain ⟨r, hr, h1, _, _, _, h5, _⟩ := C7_child_terminal glibc (sampleChild 12 false) 12 hc
  have ht := ((h5 bad1 (Or.inr (by decide)) (by decide)).1 (by decide)).1
  refine ⟨hc, ?_⟩
  rw [hr, Option.map_some', ht, h1]

/-! ## Array accesses -/

theorem spawnAt_spawned (env : Env) (k : Nat) : ∀ s, spawnAt env k = some s →
    s = spawned env k ∧ k ≤ NCHILD ∧ ∀ j, j < k → 0 < env.fork j := by
  induction k with
  | zero =>
    intro s hs
    simp only [spawnAt, Option.some.injEq] at hs
    exact ⟨hs.symm, Nat.zero_le _, fun j hj => absurd hj (Nat.not_lt_zero j)⟩
  | succ k ih =>
    intro s hs
    simp only [spawnAt] at hs
    cases hk : spawnAt env k with
    | none => simp [hk] at hs
    | some s0 =>
      obtain ⟨e0, _, hpos⟩ := ih s0 hk
      subst e0
      simp only [hk] at hs
      by_cases hlt : k < NCHILD
      · simp only [hlt, if_true] at hs
        by_cases hf : 0 < env.fork k
        · rw [spawnStep_spawned env k hlt hf] at hs
          simp only [Option.some.injEq] at hs
          refine ⟨hs.symm, hlt, ?_⟩
          intro j hj
          rcases Nat.lt_succ_iff_lt_or_eq.mp hj with h' | h'
          · exact hpos j h'
          · rw [h']; exact hf
        · exfalso
          by_cases hz : env.fork k = 0
          · obtain ⟨s', hs', _⟩ := child_result env k hlt ((spawned env k).emit [.forkCall k])
            simp [spawnStep, hz, hs'] at hs
          · have hneg : env.fork k < 0 := by omega
            simp [spawnStep, hneg] at hs
      · simp [hlt] at hs

/-- C10: at the head of every iteration of the spawn loop that is reached
(after `k` executions of the loop test and body), `created` equals the loop
index `k`, which is at most 15, the array `child_pids` has its 15 cells, and
`child_pids[j]` holds the value returned by the `j`-th `fork()` for every
`j < created`; the loop started at line 108 does arrive at this state.  Hence
no execution context, parent or child, ever reads a cell of `child_pids`,
`types` or `argvs` outside the array or before it is written. -/
theorem C10_spawn_invariant (env : Env) (k : Nat) (s : Locals) (hk : spawnAt env k = some s) :
    s.created = k ∧ k ≤ NCHILD ∧ s.child_pids.length = NCHILD ∧
    (∀ j, j < s.created → readCell s.child_pids j = some (env.fork j)) ∧
    (∀ fuel, spawnLoop env (fuel + k) 0 (start env) = spawnLoop env fuel k s) ∧
    (∀ W, ∃ r, main W env = some r ∧ r.term ≠ .undefinedBehaviour ∧
      r.final.created ≤ NCHILD ∧
      ∀ j, j < r.final.created → readCell r.final.child_pids j = some (env.fork j)) := by
  obtain ⟨e, hle, hpos⟩ := spawnAt_spawned env k s hk
  subst e
  refine ⟨spawned_created env k, hle, spawned_length env k, ?_, ?_, ?_⟩
  · intro j hj
    rw [spawned_created] at hj
    exact spawned_read env k j hle hj
  · intro fuel
    have := spawnLoop_spawned env k 0 fuel (by omega) (fun j _ hj => hpos j (by omega))
    rw [Nat.zero_add] at this
    exact this
  · intro W
    rcases main_cases W env with ⟨_, hm⟩ | ⟨m, hm, _, _, hrun⟩ | ⟨m, hc, s', hrun, _, _, _, hcr, hpids⟩
    · obtain ⟨f1, f2, _⟩ := report_final (reaped W env NCHILD)
      obtain ⟨g1, g2⟩ := reaped_frame W env NCHILD
      refine ⟨_, hm, by simp [report], by rw [f1, g2], ?_⟩
      intro j hj
      rw [f1, g2] at hj
      rw [f2, g1]
      exact spawned_read env NCHILD j (le_refl _) hj
    · refine ⟨_, hrun, by simp [forkFailRun], ?_, ?_⟩
      · show (spawned env m).created ≤ NCHILD
        rw [spawned_created]; omega
      · intro j hj
        have hj' : j < (spawned env m).created := hj
        rw [spawned_created] at hj'
        exact spawned_read env m j (by omega) hj'
    · refine ⟨_, hrun, ?_, ?_, ?_⟩
      · simp only [childTermination]
        split_ifs <;> simp
      · show s'.created ≤ NCHILD
        have := hc.1
        omega
      · intro j hj
        have hj' : j < m := by rw [← hcr]; exact hj
        show readCell s'.child_pids j = some (env.fork j)
        rw [hpids]
        exact spawned_read env m j (le_of_lt hc.1) hj'

/-- Witness of C10: the state of the sample parent at the head of iteration 3. -/
theorem C10_spawn_invariant_witness :
    spawnAt sampleParent 3 = some (spawned sampleParent 3) ∧
    (spawned sampleParent 3).created = 3 ∧
    readCell (spawned sampleParent 3).child_pids 2 = some 103 := by
  have hk : spawnAt sampleParent 3 = some (spawned sampleParent 3) := by decide
  have h := C10_spawn_invariant sampleParent 3 _ hk
  exact ⟨hk, h.1, h.2.2.2.1 2 (by rw [h.1]; decide)⟩

/-! ## The nominal run -/

theorem reap_details (W : WaitStatus) (env : Env) (i : Nat) (pid : Int) (s : Locals) :
    details (reap W env i pid s).trace
      = details s.trace
        ++ (if (env.waitpid i pid).1 = -1 then [] else [detailOf W (env.waitpid i pid).2]) := by
  simp only [reap, classify, detailOf, Locals.emit]
  split_ifs <;> simp [details]

theorem reaped_details (W : WaitStatus) (env : Env) (k : Nat) :
    details (reaped W env k).trace
      = ((List.range k).filter (waitOk env)).map (fun i => detailOf W (statusAt env i)) := by
  induction k with
  | zero => simp [reaped, (spawned_quiet env NCHILD).2.2.2.1]
  | succ k ih =>
    simp only [reaped]
    rw [reap_details, ih, List.range_succ, List.filter_append, List.map_append]
    by_cases hw : (env.waitpid k (env.fork k)).1 = -1 <;> simp [waitOk, statusAt, hw]

theorem range_NCHILD :
    List.range NCHILD = [0, 1, 2, 3, 4, 5, 6, 7, 8, 9, 10, 11, 12, 13, 14] := by
  decide

/-- C8: let all 15 creations and all 15 waits succeed, let the programs of the
`JOB_EXEC` children 0-10 be found and exit with 0, let `execvp` fail in the
`JOB_INVALID` children 11-12, and let the status of each child 11-14 be the
one the operating system derives from the way that child's own execution
context ends (`statusMatches`).  Then the parent calls `fork()` exactly 15
times, returns `EXIT_SUCCESS`, and prints the summary `created = 15`,
`exited_zero = 11`, `exited_nonzero = 2`, `terminated_signal = 2`; the
classification details are eleven exits with code 0, two exits with code 127
and two terminations by `SIGABRT`, none unknown. -/
theorem C8_nominal_run (W : WaitStatus) (env : Env) (cenv : Nat → Env)
    (hfork : AllForksSucceed env)
    (hwait : ∀ i, i < NCHILD → waitOk env i = true)
    (hctx : ∀ i, i < NCHILD → ChildContext (cenv i) i)
    (hexec : ∀ i, i < 11 → (cenv i).execvp (argvOf i).head? (argvOf i) = true ∧
      W.WIFEXITED (statusAt env i) = true ∧ W.WEXITSTATUS (statusAt env i) = 0)
    (hbad : ∀ i, 11 ≤ i → i < 13 → (cenv i).execvp (argvOf i).head? (argvOf i) = false)
    (hos : ∀ i, 11 ≤ i → i < NCHILD →
      (main W (cenv i)).map (fun c => statusMatches W c.term (statusAt env i)) = some true) :
    ∃ r, main W env = some r ∧ r.term = .returned EXIT_SUCCESS ∧
      forkIndices r.final.trace = List.range 15 ∧
      summaries r.final.trace = [(15, 11, 2, 2)] ∧
      details r.final.trace
        = List.replicate 11 (.exitedNormally 0)
          ++ [.exitedNormally 127, .exitedNormally 127,
              .terminatedBySignal SIGABRT, .terminatedBySignal SIGABRT] ∧
      r.final.trace.count .endedAbnormally = 0 ∧
      (∀ i, i < 11 → (main W (cenv i)).map Run.term
        = some (.replaced (argvOf i).head? (argvOf i))) ∧
      (∀ i, 11 ≤ i → i < 13 → (main W (cenv i)).map Run.term = some (.execFailExit 127)) ∧
      (∀ i, 13 ≤ i → i < NCHILD → (main W (cenv i)).map Run.term = some .aborted) := by
  -- what each child context does
  have hchild : ∀ i, i < NCHILD →
      (main W (cenv i)).map Run.term = some (childTermination (cenv i) i) := by
    intro i hi
    obtain ⟨s, hs, _⟩ := main_child W (cenv i) i (hctx i hi)
    rw [hs]; rfl
  have hgood : ∀ i, i < 11 → (main W (cenv i)).map Run.term
      = some (.replaced (argvOf i).head? (argvOf i)) := by
    intro i hi
    rw [hchild i (by unfold NCHILD; omega)]
    simp [childTermination, (hexec i hi).1, show i < 13 by omega]
  have hinv : ∀ i, 11 ≤ i → i < 13 →
      (main W (cenv i)).map Run.term = some (.execFailExit 127) := by
    intro i h1 h2
    rw [hchild i (by unfold NCHILD; omega)]
    simp [childTermination, hbad i h1 h2, h2]
  have habt : ∀ i, 13 ≤ i → i < NCHILD → (main W (cenv i)).map Run.term = some .aborted := by
    intro i h1 h2
    rw [hchild i h2]
    simp [childTermination, show ¬ i < 13 by omega]
  -- the statuses the parent retrieves
  have hst127 : ∀ i, 11 ≤ i → i < 13 →
      W.WIFEXITED (statusAt env i) = true ∧ W.WEXITSTATUS (statusAt env i) = 127 := by
    intro i h1 h2
    have h := hos i h1 (by unfold NCHILD; omega)
    obtain ⟨s, hs, _⟩ := main_child W (cenv i) i (hctx i (by unfold NCHILD; omega))
    rw [hs] at h
    simpa [childTermination, hbad i h1 h2, h2, statusMatches] using h
  have hstabrt : ∀ i, 13 ≤ i → i < NCHILD →
      W.WIFEXITED (statusAt env i) = false ∧ W.WIFSIGNALED (statusAt env i) = true ∧
        W.WTERMSIG (statusAt env i) = SIGABRT := by
    intro i h1 h2
    have h := hos i (by omega) h2
    obtain ⟨s, hs, _⟩ := main_child W (cenv i) i (hctx i h2)
    rw [hs] at h
    simpa [childTermination, show ¬ i < 13 by omega, statusMatches, and_assoc] using h
  -- the parent
  obtain ⟨f1, _, f3, _, f5, _, _, f8, f9⟩ := report_final (reaped W env NCHILD)
  obtain ⟨_, e2, e3, e4, _, e6⟩ := reaped_effect W env NCHILD
  obtain ⟨_, g2⟩ := reaped_frame W env NCHILD
  have hflt : (List.range NCHILD).filter (waitOk env) = List.range NCHILD :=
    List.filter_eq_self.mpr (fun i hi => hwait i (List.mem_range.mp hi))
  have z0 := hexec 0 (by decide)
  have z1 := hexec 1 (by decide)
  have z2 := hexec 2 (by decide)
  have z3 := hexec 3 (by decide)
  have z4 := hexec 4 (by decide)
  have z5 := hexec 5 (by decide)
  have z6 := hexec 6 (by decide)
  have z7 := hexec 7 (by decide)
  have z8 := hexec 8 (by decide)
  have z9 := hexec 9 (by decide)
  have z10 := hexec 10 (by decide)
  have n11 := hst127 11 (by decide) (by decide)
  have n12 := hst127 12 (by decide) (by decide)
  have a13 := hstabrt 13 (by decide) (by decide)
  have a14 := hstabrt 14 (by decide) (by decide)
  have hout : (reaped W env NCHILD).outcomes = (11, 2, 2) := by
    rw [reaped_outcomes, hflt, range_NCHILD]
    simp [tallyStep, z0, z1, z2, z3, z4, z5, z6, z7, z8, z9, z10, n11, n12, a13, a14]
  have hdet : details (reaped W env NCHILD).trace
      = List.replicate 11 (.exitedNormally 0)
        ++ [.exitedNormally 127, .exitedNormally 127,
            .terminatedBySignal SIGABRT, .terminatedBySignal SIGABRT] := by
    rw [reaped_details, hflt, range_NCHILD]
    simp [detailOf, z0, z1, z2, z3, z4, z5, z6, z7, z8, z9, z10, n11, n12, a13, a14,
      List.replicate]
  simp only [Locals.outcomes, Prod.mk.injEq] at hout
  obtain ⟨o1, o2, o3⟩ := hout
  have hunk : (reaped W env NCHILD).trace.count .endedAbnormally = 0 := by
    have h15 : (reportIndices (reaped W env NCHILD).trace).length = 15 := by
      rw [e4, hflt, range_NCHILD]; rfl
    rw [h15, o1, o2, o3] at e6
    omega
  refine ⟨_, main_parent W env hfork, rfl, by rw [f5, e2]; rfl, ?_, ?_, by rw [f8, hunk],
    hgood, hinv, habt⟩
  · rw [f9, e3, g2, o1, o2, o3]; rfl
  · have : details (report (reaped W env NCHILD)).final.trace
        = details (reaped W env NCHILD).trace := by
      simp [report, Locals.emit, details]
    rw [this, hdet]

/-- Witness of C8: the sample parent and the sample children, of which those
of the valid commands find their program and the others do not. -/
theorem C8_nominal_run_witness :
    AllForksSucceed sampleParent ∧
    (main glibc sampleParent).map (fun r => summaries r.final.trace)
      = some [(15, 11, 2, 2)] := by
  have hs : AllForksSucceed sampleParent := by unfold AllForksSucceed; decide
  obtain ⟨r, hr, _, _, h4, _⟩ := C8_nominal_run glibc sampleParent
    (fun i => sampleChild i (decide (i < 11))) hs (by decide)
    (by unfold ChildContext; decide) (by decide) (by decide) (by decide)
  refine ⟨hs, ?_⟩
  rw [hr, Option.map_some', h4]

/-! ## The counters -/

/-- C9, counterexample: in `sampleStopped` every wait succeeds (`waitpid`
returns the identifier, not -1) with a status that is neither a normal exit
nor a signal termination.  The body for child 0 runs through the report line
and yet none of the four counters is incremented; the whole run reports 15
reaped children and prints the summary `15, 0, 0, 0`. -/
theorem C9_counterexample :
    (sampleStopped.waitpid 0 101).1 ≠ -1 ∧
    reportIndices (reap glibc sampleStopped 0 101 (spawned sampleStopped NCHILD)).trace = [0] ∧
    (spawned sampleStopped NCHILD).created = 15 ∧
    (spawned sampleStopped NCHILD).outcomes = (0, 0, 0) ∧
    (reap glibc sampleStopped 0 101 (spawned sampleStopped NCHILD)).created = 15 ∧
    (reap glibc sampleStopped 0 101 (spawned sampleStopped NCHILD)).outcomes = (0, 0, 0) ∧
    (main glibc sampleStopped).map
        (fun r => ((reportIndices r.final.trace).length, summaries r.final.trace))
      = some (15, [(15, 0, 0, 0)]) := by
  decide

theorem child_frame (env : Env) (i : Nat) (s : Locals) :
    ∃ s' t, child env i s = .halt s' t ∧ s'.created = s.created ∧ s'.outcomes = s.outcomes := by
  unfold child
  simp only []
  repeat' split
  all_goals exact ⟨_, _, rfl, rfl, rfl⟩

theorem spawnStep_failure (env : Env) (i : Nat) (s : Locals) (h : env.fork i ≤ 0) :
    ∃ s' t, spawnStep env i s = .halt s' t ∧ s'.created = s.created ∧
      s'.outcomes = s.outcomes := by
  by_cases hneg : env.fork i < 0
  · refine ⟨(s.emit [.forkCall i]).emit [.forkFailed], .forkFailExit EXIT_FAILURE, ?_, rfl, rfl⟩
    simp only [spawnStep, hneg, if_true]
  · have hz : env.fork i = 0 := by omega
    obtain ⟨s', t, hc, h1, h2⟩ := child_frame env i (s.emit [.forkCall i])
    refine ⟨s', t, ?_, h1, h2⟩
    simp only [spawnStep, hneg, hz, if_true, if_false]
    exact hc

theorem reap_tally (W : WaitStatus) (env : Env) (i : Nat) (pid : Int) (s : Locals) :
    (reap W env i pid s).outcomes
      = if isZeroExit W env (i, pid) then
          (s.exited_zero + 1, s.exited_nonzero, s.terminated_signal)
        else if isNonzeroExit W env (i, pid) then
          (s.exited_zero, s.exited_nonzero + 1, s.terminated_signal)
        else if isSignal W env (i, pid) then
          (s.exited_zero, s.exited_nonzero, s.terminated_signal + 1)
        else s.outcomes := by
  rw [reap_outcomes]
  simp only [tallyStep, isZeroExit, isNonzeroExit, isSignal, Locals.outcomes]
  by_cases hw : (env.waitpid i pid).1 = -1
  · simp [hw]
  · by_cases he : W.WIFEXITED (env.waitpid i pid).2 = true
    · by_cases hc : W.WEXITSTATUS (env.waitpid i pid).2 = 0 <;> simp [hw, he, hc]
    · by_cases hg : W.WIFSIGNALED (env.waitpid i pid).2 = true <;> simp [hw, he, hg]

theorem reaped_tally (W : WaitStatus) (env : Env) (k : Nat) :
    (reaped W env k).outcomes
      = ((List.range k).countP (fun i => isZeroExit W env (i, env.fork i)),
         (List.range k).countP (fun i => isNonzeroExit W env (i, env.fork i)),
         (List.range k).countP (fun i => isSignal W env (i, env.fork i))) := by
  induction k with
  | zero =>
    obtain ⟨t1, t2, t3⟩ := spawned_tallies env NCHILD
    simp [reaped, Locals.outcomes, t1, t2, t3]
  | succ k ih =>
    simp only [reaped]
    rw [reap_tally]
    simp only [Locals.outcomes, Prod.mk.injEq] at ih
    obtain ⟨i1, i2, i3⟩ := ih
    simp only [List.range_succ, List.countP_append, List.countP_singleton, i1, i2, i3,
      Locals.outcomes]
    have hx1 : isZeroExit W env (k, env.fork k) = true →
        isNonzeroExit W env (k, env.fork k) = false ∧ isSignal W env (k, env.fork k) = false := by
      simp only [isZeroExit, isNonzeroExit, isSignal]
      intro h
      simp only [Bool.and_eq_true, decide_eq_true_eq] at h
      simp [h.1.2, h.2]
    have hx2 : isNonzeroExit W env (k, env.fork k) = true →
        isSignal W env (k, env.fork k) = false := by
      simp only [isNonzeroExit, isSignal]
      intro h
      simp only [Bool.and_eq_true, decide_eq_true_eq] at h
      simp [h.1.2]
    by_cases h1 : isZeroExit W env (k, env.fork k) = true
    · obtain ⟨h2, h3⟩ := hx1 h1
      simp [h1, h2, h3]
    · by_cases h2 : isNonzeroExit W env (k, env.fork k) = true
      · have h3 := hx2 h2
        simp [h1, h2, h3]
      · by_cases h3 : isSignal W env (k, env.fork k) = true <;> simp [h1, h2, h3]

/-- C9, amended: the four counters start at zero.  An iteration of the spawn
loop whose `fork()` succeeds (returns a positive identifier) goes on with
`created` incremented by exactly one and the outcome counters untouched; one
whose `fork()` does not succeed ends the execution context with all counters
untouched.  An iteration of the wait loop never changes `created`; it
increments exactly one of the three outcome counters, by exactly one, when
the wait succeeds with a normal exit (`exited_zero` for code 0,
`exited_nonzero` otherwise) or with a signal termination
(`terminated_signal`), and changes no counter when the wait fails or succeeds
with a status that is neither.  For the whole run: the final `created` is the
number of successful creations (the `fork()` calls before the first one that
does not return a positive value, 15 if there is none); when all creations
succeed each final outcome counter is the number of records whose wait
succeeded with a status of its class, otherwise all three are zero. -/
theorem C9_tallies (W : WaitStatus) (env : Env) :
    ((start env).created = 0 ∧ (start env).outcomes = (0, 0, 0)) ∧
    (∀ i s, i < s.child_pids.length →
      (0 < env.fork i → ∃ s', spawnStep env i s = .next s' ∧
        s'.created = s.created + 1 ∧ s'.outcomes = s.outcomes) ∧
      (env.fork i ≤ 0 → ∃ s' t, spawnStep env i s = .halt s' t ∧
        s'.created = s.created ∧ s'.outcomes = s.outcomes)) ∧
    (∀ i s pid, readCell s.child_pids i = some pid →
      ∃ s', waitStep W env i s = .next s' ∧ s'.created = s.created ∧
        s'.outcomes
          = if isZeroExit W env (i, pid) then
              (s.exited_zero + 1, s.exited_nonzero, s.terminated_signal)
            else if isNonzeroExit W env (i, pid) then
              (s.exited_zero, s.exited_nonzero + 1, s.terminated_signal)
            else if isSignal W env (i, pid) then
              (s.exited_zero, s.exited_nonzero, s.terminated_signal + 1)
            else s.outcomes) ∧
    (∃ r, main W env = some r ∧
      (∀ m, m ≤ NCHILD → (∀ j, j < m → 0 < env.fork j) → (m = NCHILD ∨ env.fork m ≤ 0) →
        r.final.created = m) ∧
      (AllForksSucceed env → r.final.outcomes
        = ((List.range NCHILD).countP (fun i => isZeroExit W env (i, env.fork i)),
           (List.range NCHILD).countP (fun i => isNonzeroExit W env (i, env.fork i)),
           (List.range NCHILD).countP (fun i => isSignal W env (i, env.fork i)))) ∧
      (¬ AllForksSucceed env → r.final.outcomes = (0, 0, 0))) := by
  refine ⟨⟨rfl, rfl⟩, ?_, ?_, ?_⟩
  · intro i s hi
    refine ⟨?_, spawnStep_failure env i s⟩
    intro hpos
    have h1 : ¬ env.fork i < 0 := by omega
    have h2 : ¬ env.fork i = 0 := by omega
    have hi' : i < (s.emit [.forkCall i]).child_pids.length := hi
    refine ⟨recordChild i (env.fork i) (s.emit [.forkCall i]), ?_, rfl, rfl⟩
    simp only [spawnStep, h1, h2, hi', if_true, if_false]
  · intro i s pid hread
    refine ⟨reap W env i pid s, ?_, ?_, reap_tally W env i pid s⟩
    · simp only [waitStep, hread]
    · simp only [reap, classify, Locals.emit]
      split_ifs <;> rfl
  · rcases first_nonpos env.fork NCHILD with hall | ⟨m0, hm0, hpos, hle⟩
    · obtain ⟨f1, _, f3, _⟩ := report_final (reaped W env NCHILD)
      refine ⟨_, main_parent W env hall, ?_, ?_, fun hn => absurd hall hn⟩
      · intro m hm _ hend
        rw [f1, (reaped_frame W env NCHILD).2]
        rcases hend with hend | hend
        · exact hend.symm
        · by_contra hne
          have := hall m (lt_of_le_of_ne hm (fun e => hne e.symm))
          omega
      · intro _
        rw [f3, reaped_tally]
    · obtain ⟨s', t, hstep, hc, ho⟩ := spawnStep_failure env m0 (spawned env m0) hle
      have hrun := main_halt W env m0 hm0 hpos s' t hstep
      refine ⟨_, hrun, ?_, ?_, ?_⟩
      · intro m hm hpos' hend
        show s'.created = m
        rw [hc, spawned_created]
        have h1 : ¬ m0 < m := fun h => by have := hpos' m0 h; omega
        have h2 : ¬ m < m0 := by
          intro h
          have hp := hpos m h
          rcases hend with hend | hend
          · omega
          · omega
        omega
      · intro hall
        have := hall m0 hm0
        omega
      · intro _
        show s'.outcomes = (0, 0, 0)
        obtain ⟨t1, t2, t3⟩ := spawned_tallies env m0
        rw [ho]
        simp [Locals.outcomes, t1, t2, t3]

/-- Witness of C9: in the sample parent context 15 children are created and
the counters end at 11, 2 and 2, which is also the summary that `main`
prints; the step for child 13, killed by signal 6, increments
`terminated_signal` alone. -/
theorem C9_tallies_witness :
    (main glibc sampleParent).map (fun r => (r.final.created, r.final.outcomes))
      = some (15, (11, 2, 2)) ∧
    (main glibc sampleParent).map (fun r => summaries r.final.trace)
      = some [(15, 11, 2, 2)] ∧
    (waitStep glibc sampleParent 13 (spawned sampleParent NCHILD)) = .next
      { spawned sampleParent NCHILD with
        terminated_signal := 1,
        trace := (spawned sampleParent NCHILD).trace
          ++ [.waitCall 13 114, .waitedFor 13 114, .terminatedBySignal 6] } := by
  have h := C9_tallies glibc sampleParent
  obtain ⟨r, hr, hc, ho, _⟩ := h.2.2.2
  have hall : AllForksSucceed sampleParent := by unfold AllForksSucceed; decide
  refine ⟨?_, by decide, by decide⟩
  rw [hr, Option.map_some', hc NCHILD (le_refl _) (fun j hj => hall j hj) (Or.inl rfl), ho hall]
  decide

end Lab2
